import Mathlib

/-!
Verification of the Hashstack event-sourced loan-state engine
(`src/src/hashstack.py` of the repository).

The Python source is shallowly embedded:

* `decimal.Decimal` amounts become `ℚ` (exact decimal arithmetic);
* token symbols become the inductive `Token`; token-amount dictionaries
  (`src.state.TokenAmounts`, whose keys range over the known token
  universe and where absence means zero) become total functions
  `Token → ℚ`;
* raw event fields (hex strings of felts) become natural numbers: the
  source converts each relevant field with `int(x, base=16)`, so we work
  with the already-converted values.  Transaction hashes are fixed-width
  hex strings of felts, whose lexicographic order agrees with the numeric
  order, so they are also modelled as `ℕ`;
* the loan-entity store (a Python dict keyed by loan id) becomes an
  association list with dict update semantics (update in place if the key
  is present, append otherwise);
* fallible code (field access, token-registry lookup, `assert`) returns
  `Except ProcessErr`.

Modules `src.state`, `src.constants` and `src.helpers` are referenced by
`hashstack.py` but are not part of the repository snapshot; the few
definitions needed from them are modelled from the spec and carry a
`Modelled from the spec:` doc comment.
-/

namespace Hashstack

/-- The known token universe.  The five symbols appear in
`SUPPLY_TOKEN_ADRESSES` of `src/src/hashstack.py`; `wstETH` additionally
appears in `HashstackLoanEntity.COLLATERAL_FACTORS` (line 90). -/
inductive Token
  | ETH
  | wBTC
  | USDC
  | DAI
  | USDT
  | wstETH
deriving DecidableEq, Fintype

/-- The known token universe as a list (iteration order of the Python
constant tables). -/
def allTokens : List Token :=
  [.ETH, .wBTC, .USDC, .DAI, .USDT, .wstETH]

/-- Modelled from the spec: the decimal-scale table
(`src.constants.TOKEN_DECIMAL_FACTORS`, not under `src/`): a mapping from
token symbol to its on-chain decimal scale factor, used only by USD
conversion.  The spec fixes its key set (the known token universe) but not
its values; the standard on-chain decimal scales are used here.  No claim
depends on the particular values. -/
def TOKEN_DECIMAL_FACTORS : Token → ℚ
  | .ETH => 10 ^ 18
  | .wBTC => 10 ^ 8
  | .USDC => 10 ^ 6
  | .DAI => 10 ^ 18
  | .USDT => 10 ^ 6
  | .wstETH => 10 ^ 18

/-- Modelled from the spec: the token registry
(`src.constants.get_symbol`, not under `src/`): `get_symbol(address) →
token symbol`, failing on an unknown address (a dictionary lookup, raising
`KeyError` on a miss).  The known addresses are the values of
`SUPPLY_TOKEN_ADRESSES` in `src/src/hashstack.py` (lines 28-34). -/
def get_symbol (addr : ℕ) : Option Token :=
  if addr = 0x049d36570d4e46f48e99674bd3fcc84644ddd6b96f7c741b1562b82f9e004dc7 then some .ETH
  else if addr = 0x03fe2b97c1fd336e750087d68b9b867997fd64a2661ff3ca5a7c771641e8e7ac then some .wBTC
  else if addr = 0x053c91253bc9682c04929ca02ed00b3e423f6710d2ee7e0d5ebb06f3ecf368a8 then some .USDC
  else if addr = 0x00da114221cb83fa859dbdb4c44beeaa0bb37c7537ad5ae66fe5e0efd20e6eb3 then some .DAI
  else if addr = 0x068f5c6a61780768455de69077e07e89787839bf8166decfbf92b645209c0fb8 then some .USDT
  else none

/-- The eight event types handled by `EVENTS_METHODS_MAPPING`
(`src/src/hashstack.py` lines 17-26). -/
inductive EventType
  | new_loan
  | collateral_added
  | collateral_withdrawal
  | loan_withdrawal
  | loan_repaid
  | loan_swap
  | loan_interest_deducted
  | liquidated
deriving DecidableEq

/-- A raw event row: the columns of the events dataframe that the engine
reads (`block_number`, `transaction_hash`, `key_name`, `data`). -/
structure Event where
  block_number : ℕ
  transaction_hash : ℕ
  key_name : EventType
  data : List ℕ
deriving DecidableEq

/-- The `order` column computed inside `get_events`
(`src/src/hashstack.py` lines 53-64): a fixed integer rank per event
type. -/
def event_order : EventType → ℕ
  | .new_loan => 0
  | .loan_withdrawal => 3
  | .loan_repaid => 4
  | .loan_swap => 1
  | .collateral_added => 6
  | .collateral_withdrawal => 7
  | .loan_interest_deducted => 5
  | .liquidated => 2

/-- The sort key used by `events.sort_values(["block_number",
"transaction_hash", "order"])` (`src/src/hashstack.py` lines 65-67). -/
def sortKey (e : Event) : ℕ × ℕ × ℕ :=
  (e.block_number, e.transaction_hash, event_order e.key_name)

/-- Lexicographic "less or equal" on the sort key: the ascending order
used by `sort_values`. -/
def keyR (a b : Event) : Prop :=
  a.block_number < b.block_number ∨
    (a.block_number = b.block_number ∧
      (a.transaction_hash < b.transaction_hash ∨
        (a.transaction_hash = b.transaction_hash ∧
          event_order a.key_name ≤ event_order b.key_name)))

instance : DecidableRel keyR := fun a b => by
  unfold keyR; infer_instance

instance : IsTotal Event keyR :=
  ⟨by intro a b; unfold keyR; omega⟩

instance : IsTrans Event keyR :=
  ⟨by intro a b c; unfold keyR; omega⟩

/-- `get_events` (`src/src/hashstack.py` lines 46-68): the fetched batch
(the dataframe rows returned by `src.helpers.get_events`) is modelled as
the input list; the function sorts it ascending on `(block_number,
transaction_hash, order)` with a deterministic comparison sort. -/
def get_events (events : List Event) : List Event :=
  events.insertionSort keyR

/-! ## Loan entity (`HashstackLoanEntity`, src/src/hashstack.py lines 71-146) -/

/-- The per-loan record.  `user` is the owning account address (a felt,
kept uninterpreted by the source apart from equality tests);
`debt_category` is the integer decoded from the event payload; the four
token-amount sets are total maps over the known token universe (absence
means zero). -/
structure HashstackLoanEntity where
  user : ℕ
  debt_category : ℕ
  original_collateral : Token → ℚ
  borrowed_collateral : Token → ℚ
  collateral : Token → ℚ
  debt : Token → ℚ

/-- `HashstackLoanEntity.__init__` (lines 93-98): sets `user` and
`debt_category`; all four token-amount sets start empty (all zero; the
abstract `LoanEntity.__init__` initializes `collateral` and `debt`). -/
def HashstackLoanEntity.new (user : ℕ) (debt_category : ℕ) : HashstackLoanEntity where
  user := user
  debt_category := debt_category
  original_collateral := fun _ => 0
  borrowed_collateral := fun _ => 0
  collateral := fun _ => 0
  debt := fun _ => 0

/-- A fresh `src.state.TokenAmounts()` with a single key assigned, the
pattern used by every handler to rebuild a token-amount set. -/
def singleTokenAmount (t : Token) (v : ℚ) : Token → ℚ :=
  fun t' => if t' = t then v else 0

namespace HashstackLoanEntity

/-- Modelled from the spec: `compute_collateral_usd` of the abstract
`src.state.LoanEntity` (not under `src/`): sum over the token-amount set,
converting each token's face amount to USD using the external price map
and the token's decimal-scale factor.  The price map is modelled as a
total map over the known token universe. -/
def compute_collateral_usd (e : HashstackLoanEntity) (prices : Token → ℚ) : ℚ :=
  (allTokens.map (fun t => e.collateral t / TOKEN_DECIMAL_FACTORS t * prices t)).sum

/-- Modelled from the spec: `compute_debt_usd` of the abstract
`src.state.LoanEntity` (not under `src/`): as `compute_collateral_usd`,
over the `debt` token-amount set. -/
def compute_debt_usd (e : HashstackLoanEntity) (prices : Token → ℚ) : ℚ :=
  (allTokens.map (fun t => e.debt t / TOKEN_DECIMAL_FACTORS t * prices t)).sum

/-- `compute_health_factor` (lines 100-113).  The two `Optional`
overrides mirror the Python keyword arguments; `decimal.Decimal("Inf")`
becomes `⊤ : WithTop ℚ`. -/
def compute_health_factor (e : HashstackLoanEntity) (prices : Token → ℚ)
    (cuOpt : Option ℚ) (duOpt : Option ℚ) : WithTop ℚ :=
  let collateral_usd := cuOpt.getD (e.compute_collateral_usd prices)
  let debt_usd := duOpt.getD (e.compute_debt_usd prices)
  if debt_usd = 0 then ⊤
  else ((collateral_usd / debt_usd : ℚ) : WithTop ℚ)

end HashstackLoanEntity

/-- The liquidation-threshold expression, inlined with identical text at
lines 126-132 (`compute_standardized_health_factor`) and 513-519
(`compute_liquidable_debt_at_price`) of src/src/hashstack.py:
`1.06` for category 1, `1.05` for category 2, `1.04` otherwise. -/
def health_factor_liquidation_threshold (debt_category : ℕ) : ℚ :=
  if debt_category = 1 then 106 / 100
  else if debt_category = 2 then 105 / 100
  else 104 / 100

namespace HashstackLoanEntity

/-- `compute_standardized_health_factor` (lines 115-137). -/
def compute_standardized_health_factor (e : HashstackLoanEntity) (prices : Token → ℚ)
    (cuOpt : Option ℚ) (duOpt : Option ℚ) : WithTop ℚ :=
  let collateral_usd := cuOpt.getD (e.compute_collateral_usd prices)
  let debt_usd := duOpt.getD (e.compute_debt_usd prices)
  let collateral_usd_threshold :=
    health_factor_liquidation_threshold e.debt_category * debt_usd
  if collateral_usd_threshold = 0 then ⊤
  else ((collateral_usd / collateral_usd_threshold : ℚ) : WithTop ℚ)

/-- `compute_debt_to_be_liquidated` (lines 139-146): returns `debt_usd`
unchanged. -/
def compute_debt_to_be_liquidated (e : HashstackLoanEntity)
    (duOpt : Option ℚ) (prices : Token → ℚ) : ℚ :=
  duOpt.getD (e.compute_debt_usd prices)

/-- Modelled from the spec: `has_collateral` of the abstract
`src.state.LoanEntity` (not under `src/`): the loan holds some nonzero
collateral amount. -/
def has_collateral (e : HashstackLoanEntity) : Prop :=
  ∃ t, e.collateral t ≠ 0

/-- Modelled from the spec: `has_debt` of the abstract
`src.state.LoanEntity` (not under `src/`): the loan holds some nonzero
debt amount. -/
def has_debt (e : HashstackLoanEntity) : Prop :=
  ∃ t, e.debt t ≠ 0

instance : DecidablePred has_collateral := fun e => by
  unfold has_collateral; infer_instance

instance : DecidablePred has_debt := fun e => by
  unfold has_debt; infer_instance

end HashstackLoanEntity

/-! ## Loan state store (`HashstackState`, src/src/hashstack.py lines 149-541) -/

/-- The store: a Python dict from loan id to entity, modelled as an
association list with dict update semantics. -/
structure HashstackState where
  loan_entities : List (ℕ × HashstackLoanEntity)

/-- Dict read: the value at the key, if present. -/
def HashstackState.lookup (s : HashstackState) (loan_id : ℕ) : Option HashstackLoanEntity :=
  (s.loan_entities.find? (fun p => p.1 == loan_id)).map Prod.snd

/-- Dict write: update in place when the key is present (store keys are
unique, so replacing the first occurrence is the dict semantics), append
otherwise. -/
def dictSet : List (ℕ × HashstackLoanEntity) → ℕ → HashstackLoanEntity →
    List (ℕ × HashstackLoanEntity)
  | [], loan_id, e => [(loan_id, e)]
  | q :: rest, loan_id, e =>
      if q.1 = loan_id then (loan_id, e) :: rest
      else q :: dictSet rest loan_id e

/-! ## Event handlers (src/src/hashstack.py lines 170-488)

Each handler mirrors its Python method statement by statement.  Failures
(Python exceptions) are modelled by `Except ProcessErr`: on a failure the
replay of the batch aborts, so the partially mutated store on a failing
path is never observed (the spec's all-or-nothing propagation policy).
The verbose-user logging blocks are pure side effects and are omitted. -/

/-- The failure modes of the replay engine: a field absent at a fixed
index (Python `IndexError` on the `data` array), an address missing from
the token registry (`KeyError` raised by `get_symbol`), a loan id missing
from the store (`KeyError` on the `loan_entities` dict), and a failed
`assert` (`AssertionError`). -/
inductive ProcessErr
  | fieldAbsent (i : ℕ)
  | unknownToken (addr : ℕ)
  | loanMissing (loan_id : ℕ)
  | assertFailed
deriving DecidableEq

/-- Read `event["data"][i]`: `IndexError` when the index is out of
range. -/
def fieldAt (data : List ℕ) (i : ℕ) : Except ProcessErr ℕ :=
  match data.get? i with
  | some v => .ok v
  | none => .error (.fieldAbsent i)

/-- Read `get_symbol(event["data"][i])`: `IndexError` when the index is
out of range, `KeyError` when the address is unknown. -/
def symbolAt (data : List ℕ) (i : ℕ) : Except ProcessErr Token := do
  let addr ← fieldAt data i
  match get_symbol addr with
  | some t => .ok t
  | none => .error (.unknownToken addr)

/-- A Python `assert`. -/
def checkAssert (p : Prop) [Decidable p] : Except ProcessErr Unit :=
  if p then .ok () else .error .assertFailed

/-- Read `self.loan_entities[loan_id]`: `KeyError` when the loan id is
absent from the store. -/
def getLoan (s : HashstackState) (loan_id : ℕ) : Except ProcessErr HashstackLoanEntity :=
  match s.lookup loan_id with
  | some le => .ok le
  | none => .error (.loanMissing loan_id)

/-- The `collateral` recomputation appearing in every handler: rebuild
the `collateral` token-amount set as the element-wise sum of
`original_collateral` and `borrowed_collateral` over all tokens of
`src.constants.TOKEN_DECIMAL_FACTORS` (the known token universe). -/
def recomputeCollateral (le : HashstackLoanEntity) : HashstackLoanEntity :=
  { le with collateral := fun t => le.original_collateral t + le.borrowed_collateral t }

namespace HashstackState

/-- The original-collateral decode of `process_new_loan_event`
(lines 183-189): the primary layout reads the token address at index 14
and the amount at index 17; the `except KeyError` catches only the
token-registry miss (an absent field raises `IndexError`, which the
`except KeyError` does not catch), in which case the alternate layout
(indices 13 and 16) is attempted. -/
def decode_new_loan_original_collateral (data : List ℕ) :
    Except ProcessErr (Token × ℚ) := do
  let a14 ← fieldAt data 14
  match get_symbol a14 with
  | some original_collateral_token => do
      let amt ← fieldAt data 17
      .ok (original_collateral_token, (amt : ℚ))
  | none => do
      let original_collateral_token ← symbolAt data 13
      let amt ← fieldAt data 16
      .ok (original_collateral_token, (amt : ℚ))

/-- `process_new_loan_event` (lines 170-223). -/
def process_new_loan_event (s : HashstackState) (event : Event) :
    Except ProcessErr HashstackState := do
  let loan_id ← fieldAt event.data 0
  let user ← fieldAt event.data 1
  let debt_token ← symbolAt event.data 2
  let debt_face_amount ← fieldAt event.data 4
  let borrowed_collateral_token ← symbolAt event.data 6
  let borrowed_collateral_face_amount ← fieldAt event.data 7
  let debt_category ← fieldAt event.data 10
  let oc ← decode_new_loan_original_collateral event.data
  let le₀ := HashstackLoanEntity.new user debt_category
  let original_collateral := singleTokenAmount oc.1 oc.2
  let le₁ := { le₀ with original_collateral := original_collateral }
  let borrowed_collateral := singleTokenAmount borrowed_collateral_token (borrowed_collateral_face_amount : ℚ)
  let le₂ := { le₁ with borrowed_collateral := borrowed_collateral }
  let le₃ := recomputeCollateral le₂
  let le₄ := { le₃ with debt := singleTokenAmount debt_token (debt_face_amount : ℚ) }
  .ok ⟨dictSet s.loan_entities loan_id le₄⟩

/-- `process_collateral_added_event` (lines 225-251). -/
def process_collateral_added_event (s : HashstackState) (event : Event) :
    Except ProcessErr HashstackState := do
  let loan_id ← fieldAt event.data 9
  let original_collateral_token ← symbolAt event.data 0
  let original_collateral_face_amount ← fieldAt event.data 3
  let le ← getLoan s loan_id
  let original_collateral := singleTokenAmount original_collateral_token (original_collateral_face_amount : ℚ)
  let le₁ := { le with original_collateral := original_collateral }
  let le₂ := recomputeCollateral le₁
  .ok ⟨dictSet s.loan_entities loan_id le₂⟩

/-- `process_collateral_withdrawal_event` (lines 253-279): same field
layout and effect as `process_collateral_added_event`. -/
def process_collateral_withdrawal_event (s : HashstackState) (event : Event) :
    Except ProcessErr HashstackState := do
  let loan_id ← fieldAt event.data 9
  let original_collateral_token ← symbolAt event.data 0
  let original_collateral_face_amount ← fieldAt event.data 3
  let le ← getLoan s loan_id
  let original_collateral := singleTokenAmount original_collateral_token (original_collateral_face_amount : ℚ)
  let le₁ := { le with original_collateral := original_collateral }
  let le₂ := recomputeCollateral le₁
  .ok ⟨dictSet s.loan_entities loan_id le₂⟩

/-- `process_loan_withdrawal_event` (lines 281-320). -/
def process_loan_withdrawal_event (s : HashstackState) (event : Event) :
    Except ProcessErr HashstackState := do
  let loan_id ← fieldAt event.data 0
  let user ← fieldAt event.data 1
  let le ← getLoan s loan_id
  let _ ← checkAssert (le.user = user)
  let debt_token ← symbolAt event.data 2
  let debt_face_amount ← fieldAt event.data 4
  let borrowed_collateral_token ← symbolAt event.data 6
  let borrowed_collateral_face_amount ← fieldAt event.data 7
  let debt_category ← fieldAt event.data 10
  let borrowed_collateral := singleTokenAmount borrowed_collateral_token (borrowed_collateral_face_amount : ℚ)
  let le₁ := { le with borrowed_collateral := borrowed_collateral }
  let le₂ := recomputeCollateral le₁
  let le₃ := { le₂ with debt := singleTokenAmount debt_token (debt_face_amount : ℚ) }
  let le₄ := { le₃ with debt_category := debt_category }
  .ok ⟨dictSet s.loan_entities loan_id le₄⟩

/-- `process_loan_repaid_event` (lines 322-363): the debt face amount is
forced to zero ("this prevents repaid loans to appear as not repaid"),
and the event's borrowed-collateral amount is asserted to be zero. -/
def process_loan_repaid_event (s : HashstackState) (event : Event) :
    Except ProcessErr HashstackState := do
  let loan_id ← fieldAt event.data 0
  let user ← fieldAt event.data 1
  let le ← getLoan s loan_id
  let _ ← checkAssert (le.user = user)
  let debt_token ← symbolAt event.data 2
  let debt_face_amount : ℚ := 0
  let borrowed_collateral_token ← symbolAt event.data 6
  let borrowed_collateral_face_amount ← fieldAt event.data 7
  let _ ← checkAssert ((borrowed_collateral_face_amount : ℚ) = 0)
  let debt_category ← fieldAt event.data 10
  let borrowed_collateral := singleTokenAmount borrowed_collateral_token (borrowed_collateral_face_amount : ℚ)
  let le₁ := { le with borrowed_collateral := borrowed_collateral }
  let le₂ := recomputeCollateral le₁
  let le₃ := { le₂ with debt := singleTokenAmount debt_token debt_face_amount }
  let le₄ := { le₃ with debt_category := debt_category }
  .ok ⟨dictSet s.loan_entities loan_id le₄⟩

/-- `process_loan_swap_event` (lines 365-413): asserts the old and new
loan ids and users coincide and that the stored debt equals the newly
decoded debt set (whole-debt swaps only). -/
def process_loan_swap_event (s : HashstackState) (event : Event) :
    Except ProcessErr HashstackState := do
  let old_loan_id ← fieldAt event.data 0
  let old_user ← fieldAt event.data 1
  let le ← getLoan s old_loan_id
  let _ ← checkAssert (le.user = old_user)
  let new_loan_id ← fieldAt event.data 14
  let new_user ← fieldAt event.data 15
  let _ ← checkAssert (new_loan_id = old_loan_id)
  let _ ← checkAssert (new_user = old_user)
  let new_debt_token ← symbolAt event.data 16
  let new_debt_face_amount ← fieldAt event.data 18
  let new_borrowed_collateral_token ← symbolAt event.data 20
  let new_borrowed_collateral_face_amount ← fieldAt event.data 21
  let new_debt_category ← fieldAt event.data 24
  let new_borrowed_collateral := singleTokenAmount new_borrowed_collateral_token (new_borrowed_collateral_face_amount : ℚ)
  let le₁ := { le with borrowed_collateral := new_borrowed_collateral }
  let le₂ := recomputeCollateral le₁
  let new_debt := singleTokenAmount new_debt_token (new_debt_face_amount : ℚ)
  let _ ← checkAssert (∀ t, le.debt t = new_debt t)
  let le₃ := { le₂ with debt := new_debt }
  let le₄ := { le₃ with debt_category := new_debt_category }
  .ok ⟨dictSet s.loan_entities new_loan_id le₄⟩

/-- `process_loan_interest_deducted_event` (lines 415-442): rewrites
`original_collateral` only (the loan id sits at index 11 in this
layout). -/
def process_loan_interest_deducted_event (s : HashstackState) (event : Event) :
    Except ProcessErr HashstackState := do
  let loan_id ← fieldAt event.data 11
  let original_collateral_token ← symbolAt event.data 0
  let original_collateral_face_amount ← fieldAt event.data 3
  let le ← getLoan s loan_id
  let original_collateral := singleTokenAmount original_collateral_token (original_collateral_face_amount : ℚ)
  let le₁ := { le with original_collateral := original_collateral }
  let le₂ := recomputeCollateral le₁
  .ok ⟨dictSet s.loan_entities loan_id le₂⟩

/-- `process_liquidated_event` (lines 444-488): debt forced to zero, the
borrowed-collateral amount asserted zero, and `original_collateral`
cleared entirely ("for now, let's assume it disappears"). -/
def process_liquidated_event (s : HashstackState) (event : Event) :
    Except ProcessErr HashstackState := do
  let loan_id ← fieldAt event.data 0
  let user ← fieldAt event.data 1
  let le ← getLoan s loan_id
  let _ ← checkAssert (le.user = user)
  let debt_token ← symbolAt event.data 2
  let debt_face_amount : ℚ := 0
  let borrowed_collateral_token ← symbolAt event.data 6
  let borrowed_collateral_face_amount ← fieldAt event.data 7
  let _ ← checkAssert ((borrowed_collateral_face_amount : ℚ) = 0)
  let debt_category ← fieldAt event.data 10
  let borrowed_collateral := singleTokenAmount borrowed_collateral_token (borrowed_collateral_face_amount : ℚ)
  let le₁ := { le with borrowed_collateral := borrowed_collateral }
  let le₂ := { le₁ with original_collateral := fun _ => 0 }
  let le₃ := recomputeCollateral le₂
  let le₄ := { le₃ with debt := singleTokenAmount debt_token debt_face_amount }
  let le₅ := { le₄ with debt_category := debt_category }
  .ok ⟨dictSet s.loan_entities loan_id le₅⟩

/-- The event dispatch of `EVENTS_METHODS_MAPPING` (lines 17-26): each
event type routes to its handler. -/
def process_event (s : HashstackState) (event : Event) :
    Except ProcessErr HashstackState :=
  match event.key_name with
  | .new_loan => s.process_new_loan_event event
  | .collateral_added => s.process_collateral_added_event event
  | .collateral_withdrawal => s.process_collateral_withdrawal_event event
  | .loan_withdrawal => s.process_loan_withdrawal_event event
  | .loan_repaid => s.process_loan_repaid_event event
  | .loan_swap => s.process_loan_swap_event event
  | .loan_interest_deducted => s.process_loan_interest_deducted_event event
  | .liquidated => s.process_liquidated_event event

/-- Replay a batch in order. -/
def process_events (s : HashstackState) : List Event → Except ProcessErr HashstackState
  | [] => .ok s
  | ev :: rest => do
      let s' ← s.process_event ev
      s'.process_events rest

/-! ### Risk calculator (src/src/hashstack.py lines 490-541) -/

/-- `compute_liquidable_debt_at_price` (lines 490-525): override the
collateral token's price, scan every loan entity, skip loans without
positive debt in `debt_token`, skip loans whose health factor under the
modified prices is at or above their category threshold, and sum
`compute_debt_to_be_liquidated` over the rest. -/
def compute_liquidable_debt_at_price (s : HashstackState) (prices : Token → ℚ)
    (collateral_token : Token) (collateral_token_price : ℚ)
    (debt_token : Token) : ℚ :=
  let changed_prices := Function.update prices collateral_token collateral_token_price
  s.loan_entities.foldl
    (fun max_liquidated_amount p =>
      let loan_entity := p.2
      -- Filter out users who borrowed the token of interest.
      if 0 < loan_entity.debt debt_token then
        -- Filter out users with health factor below the threshold.
        let debt_usd := loan_entity.compute_debt_usd changed_prices
        let health_factor :=
          loan_entity.compute_health_factor changed_prices none (some debt_usd)
        if ((health_factor_liquidation_threshold loan_entity.debt_category : ℚ) :
            WithTop ℚ) ≤ health_factor then
          max_liquidated_amount
        else
          max_liquidated_amount +
            loan_entity.compute_debt_to_be_liquidated (some debt_usd) changed_prices
      else max_liquidated_amount)
    0

/-- `compute_number_of_active_users` (lines 527-533): the number of
distinct users owning a loan with any collateral or debt. -/
def compute_number_of_active_users (s : HashstackState) : ℕ :=
  (((s.loan_entities.filter
      (fun p => decide (p.2.has_collateral ∨ p.2.has_debt))).map
      (fun p => p.2.user)).toFinset).card

/-- `compute_number_of_active_borrowers` (lines 535-541): the number of
distinct users owning a loan with any debt. -/
def compute_number_of_active_borrowers (s : HashstackState) : ℕ :=
  (((s.loan_entities.filter
      (fun p => decide p.2.has_debt)).map
      (fun p => p.2.user)).toFinset).card

end HashstackState

/-! ## Statement-side definitions

Definitions below this point are not translations of source functions:
they name properties and concrete inputs used by the theorem statements,
for comparison against the translated code above. -/

/-- The standing invariant of spec section 3: `collateral` equals the
element-wise sum of `original_collateral` and `borrowed_collateral` over
the full known token universe. -/
def collateralInvariant (le : HashstackLoanEntity) : Prop :=
  ∀ t, le.collateral t = le.original_collateral t + le.borrowed_collateral t

/-- The entity stored by a successful `process_new_loan_event`, written
out field by field. -/
def newLoanEntity (u cat : ℕ) (oct : Token) (ocfa : ℚ) (bct : Token)
    (bcfa : ℚ) (dt : Token) (dfa : ℚ) : HashstackLoanEntity where
  user := u
  debt_category := cat
  original_collateral := singleTokenAmount oct ocfa
  borrowed_collateral := singleTokenAmount bct bcfa
  collateral := fun t => singleTokenAmount oct ocfa t + singleTokenAmount bct bcfa t
  debt := singleTokenAmount dt dfa

/-- The spec's description of the liquidable-debt scan (spec section
4.5), stated independently of the code: the sum of `debt_usd` under the
modified prices over exactly the loans that hold strictly positive debt
in `debt_token` and whose health factor under the modified prices is
strictly below their category threshold.  Used only for comparison with
`compute_liquidable_debt_at_price`. -/
def liquidableDebtSpec (s : HashstackState) (prices : Token → ℚ)
    (collateral_token : Token) (collateral_token_price : ℚ)
    (debt_token : Token) : ℚ :=
  let cps := Function.update prices collateral_token collateral_token_price
  (((s.loan_entities.map Prod.snd).filter (fun le =>
      decide (0 < le.debt debt_token) &&
      decide (le.compute_health_factor cps none (some (le.compute_debt_usd cps)) <
        ((health_factor_liquidation_threshold le.debt_category : ℚ) : WithTop ℚ)))).map
    (fun le => le.compute_debt_to_be_liquidated (some (le.compute_debt_usd cps)) cps)).sum

/-- The ETH address of `SUPPLY_TOKEN_ADRESSES`, used by concrete
inputs. -/
def ETH_ADDRESS : ℕ :=
  0x049d36570d4e46f48e99674bd3fcc84644ddd6b96f7c741b1562b82f9e004dc7

/-- The wBTC address of `SUPPLY_TOKEN_ADRESSES`, used by concrete
inputs. -/
def WBTC_ADDRESS : ℕ :=
  0x03fe2b97c1fd336e750087d68b9b867997fd64a2661ff3ca5a7c771641e8e7ac

/-- Concrete input: an event tied with `tieEventB` on the full sort key
but carrying different data. -/
def tieEventA : Event := ⟨5, 77, .collateral_added, [1]⟩

/-- Concrete input: an event tied with `tieEventA` on the full sort key
but carrying different data. -/
def tieEventB : Event := ⟨5, 77, .collateral_added, [2]⟩

/-- Concrete input: a loan entity with positive collateral and no
debt. -/
def zeroDebtEntity : HashstackLoanEntity where
  user := 1
  debt_category := 1
  original_collateral := singleTokenAmount .ETH 5
  borrowed_collateral := fun _ => 0
  collateral := singleTokenAmount .ETH 5
  debt := fun _ => 0

/-- Concrete input: the price map valuing every token at 1 USD. -/
def onePrices : Token → ℚ := fun _ => 1

/-- Concrete input: a store holding only loan 7 owned by user 1 with
5 ETH of collateral and no debt. -/
def oneLoanState : HashstackState := ⟨[(7, zeroDebtEntity)]⟩

/-- Concrete input: a `collateral_added` event for loan 7 (loan id at
index 9) adding 9 ETH (token address at index 0, amount at index 3). -/
def addCollateralEv : Event :=
  ⟨10, 1, .collateral_added, [ETH_ADDRESS, 9, 0, 9, 0, 0, 0, 0, 0, 7]⟩

/-- Concrete input: the loan entity of the spec's liquidation scenario —
owner 111, 50 wBTC of original collateral, 20 wBTC of borrowed
collateral (so 70 wBTC of collateral), 100 ETH of debt. -/
def loan7Before : HashstackLoanEntity where
  user := 111
  debt_category := 1
  original_collateral := singleTokenAmount .wBTC 50
  borrowed_collateral := singleTokenAmount .wBTC 20
  collateral := fun t => singleTokenAmount .wBTC 50 t + singleTokenAmount .wBTC 20 t
  debt := singleTokenAmount .ETH 100

/-- Concrete input: a store holding only loan 7 in the state
`loan7Before`. -/
def stateLoan7 : HashstackState := ⟨[(7, loan7Before)]⟩

/-- Concrete input: a `liquidated` event for loan 7 by user 111 with a
zero borrowed-collateral amount (index 7) and new category 2 (index
10). -/
def liquidateEv7 : Event :=
  ⟨20, 2, .liquidated, [7, 111, ETH_ADDRESS, 0, 100, 0, WBTC_ADDRESS, 0, 0, 0, 2]⟩

/-- Concrete input: a `new_loan` event for loan id 7 (long layout: the
original-collateral token sits at index 14 and its amount at index
17). -/
def newLoanEv7 : Event :=
  ⟨9, 1, .new_loan,
    [7, 222, ETH_ADDRESS, 0, 40, 0, ETH_ADDRESS, 20, 0, 0, 3, 0, 0, 0,
     ETH_ADDRESS, 0, 0, 60]⟩

/-- Concrete input: a short-layout `new_loan` payload whose index 14
holds the value 999 — not a registered token address — while the
alternate layout (token at 13, amount at 16) is valid. -/
def shortLayoutData : List ℕ :=
  [7, 222, ETH_ADDRESS, 0, 40, 0, ETH_ADDRESS, 20, 0, 0, 3, 0, 0,
   ETH_ADDRESS, 999, 0, 60]

/-- Concrete input: a `new_loan` payload with a registered token address
at index 14 but no field at index 17, while the alternate layout (token
at 13, amount at 16) is valid. -/
def absent17Data : List ℕ :=
  [7, 222, ETH_ADDRESS, 0, 40, 0, ETH_ADDRESS, 20, 0, 0, 3, 0, 0,
   ETH_ADDRESS, ETH_ADDRESS, 0, 60]

/-- Concrete input: a `collateral_added` event for loan 7 rewriting the
original collateral to 33 wBTC. -/
def midCollateralEv : Event :=
  ⟨10, 5, .collateral_added, [WBTC_ADDRESS, 0, 0, 33, 0, 0, 0, 0, 0, 7]⟩

/-- Concrete input: a `loan_repaid` event for loan 7 by user 222 with a
zero borrowed-collateral amount. -/
def repayEv7 : Event :=
  ⟨11, 6, .loan_repaid, [7, 222, ETH_ADDRESS, 0, 0, 0, ETH_ADDRESS, 0, 0, 0, 1]⟩

/-- The original-collateral set left by replaying a list of
collateral-rewriting events (each carrying its decoded token and amount)
over a starting set: the one from the last event, or the starting set if
none. -/
def lastOriginalCollateral (base : Token → ℚ) :
    List (Event × Token × ℕ) → (Token → ℚ)
  | [] => base
  | m :: rest => lastOriginalCollateral (singleTokenAmount m.2.1 (m.2.2 : ℚ)) rest

/-! ## Helper lemmas -/

/-- Destructor for a successful `Except` bind. -/
theorem bind_ok {α β : Type} {f : Except ProcessErr α}
    {g : α → Except ProcessErr β} {b : β}
    (h : (f >>= g) = .ok b) : ∃ a, f = .ok a ∧ g a = .ok b := by
  cases f with
  | error e => exact absurd h (by simp [Bind.bind, Except.bind])
  | ok a => exact ⟨a, rfl, by simpa [Bind.bind, Except.bind] using h⟩

theorem ok_bind {α β : Type} (a : α) (g : α → Except ProcessErr β) :
    (Except.ok a >>= g) = g a := rfl

theorem error_bind {α β : Type} (e : ProcessErr) (g : α → Except ProcessErr β) :
    ((Except.error e : Except ProcessErr α) >>= g) = .error e := rfl

theorem getLoan_ok {s : HashstackState} {i : ℕ} {le : HashstackLoanEntity}
    (h : s.lookup i = some le) : getLoan s i = .ok le := by
  unfold getLoan; rw [h]

theorem checkAssert_ok {p : Prop} [Decidable p] (h : p) :
    checkAssert p = .ok () := by
  unfold checkAssert; rw [if_pos h]

theorem checkAssert_fail {p : Prop} [Decidable p] (h : ¬p) :
    checkAssert p = .error .assertFailed := by
  unfold checkAssert; rw [if_neg h]

theorem keyR_antisymm {a b : Event} (h₁ : keyR a b) (h₂ : keyR b a) :
    sortKey a = sortKey b := by
  unfold keyR at h₁ h₂
  unfold sortKey
  simp only [Prod.mk.injEq]
  omega
theorem get_events_perm (l : List Event) : (get_events l).Perm l :=
  List.perm_insertionSort keyR l
theorem get_events_sorted (l : List Event) : (get_events l).Sorted keyR :=
  List.sorted_insertionSort keyR l
/-- Two sorted lists that are permutations of each other and whose sort
keys are pairwise distinct are equal. -/
theorem sorted_perm_key_inj_eq :
    ∀ {l₁ l₂ : List Event}, l₁.Perm l₂ → l₁.Sorted keyR → l₂.Sorted keyR →
      l₁.Pairwise (fun a b => sortKey a ≠ sortKey b) → l₁ = l₂ := by
  intro l₁
  induction l₁ with
  | nil =>
    intro l₂ hperm _ _ _
    exact (hperm.nil_eq).symm ▸ rfl
  | cons a t₁ ih =>
    intro l₂ hperm hs₁ hs₂ hinj
    match l₂ with
    | [] => exact absurd hperm.symm.nil_eq (by simp)
    | b :: t₂ =>
      by_cases hab : a = b
      · subst hab
        have htail : t₁.Perm t₂ := hperm.cons_inv
        have hs₁' := (List.sorted_cons.mp hs₁).2
        have hs₂' := (List.sorted_cons.mp hs₂).2
        have hinj' := List.Pairwise.of_cons hinj
        rw [ih htail hs₁' hs₂' hinj']
      · exfalso
        have hbmem : b ∈ a :: t₁ := hperm.mem_iff.mpr (List.mem_cons_self b t₂)
        have hbt₁ : b ∈ t₁ := by
          cases List.mem_cons.mp hbmem with
          | inl h => exact absurd h.symm hab
          | inr h => exact h
        have hamem : a ∈ b :: t₂ := hperm.mem_iff.mp (List.mem_cons_self a t₁)
        have hat₂ : a ∈ t₂ := by
          cases List.mem_cons.mp hamem with
          | inl h => exact absurd h hab
          | inr h => exact h
        have hab' : keyR a b := (List.sorted_cons.mp hs₁).1 b hbt₁
        have hba : keyR b a := (List.sorted_cons.mp hs₂).1 a hat₂
        have hkey : sortKey a = sortKey b := keyR_antisymm hab' hba
        have hne : sortKey a ≠ sortKey b :=
          (List.pairwise_cons.mp hinj).1 b hbt₁
        exact hne hkey
theorem mem_dictSet :
    ∀ {l : List (ℕ × HashstackLoanEntity)} {loan_id : ℕ}
      {e : HashstackLoanEntity} {p : ℕ × HashstackLoanEntity},
      p ∈ dictSet l loan_id e → p = (loan_id, e) ∨ p ∈ l := by
  intro l
  induction l with
  | nil =>
    intro loan_id e p hp
    exact Or.inl (List.mem_singleton.mp hp)
  | cons q rest ih =>
    intro loan_id e p hp
    by_cases hq : q.1 = loan_id
    · rw [dictSet, if_pos hq] at hp
      rcases List.mem_cons.mp hp with h | h
      · exact Or.inl h
      · exact Or.inr (List.mem_cons_of_mem q h)
    · rw [dictSet, if_neg hq] at hp
      rcases List.mem_cons.mp hp with h | h
      · exact Or.inr (h ▸ List.mem_cons_self q rest)
      · rcases ih h with h' | h'
        · exact Or.inl h'
        · exact Or.inr (List.mem_cons_of_mem q h')
theorem find?_dictSet_self :
    ∀ (l : List (ℕ × HashstackLoanEntity)) (loan_id : ℕ) (e : HashstackLoanEntity),
      (dictSet l loan_id e).find? (fun p => p.1 == loan_id) = some (loan_id, e) := by
  intro l
  induction l with
  | nil => intro loan_id e; simp [dictSet]
  | cons q rest ih =>
    intro loan_id e
    by_cases hq : q.1 = loan_id
    · rw [dictSet, if_pos hq]; simp
    · rw [dictSet, if_neg hq]
      have : (q.1 == loan_id) = false := by simp [hq]
      simp only [List.find?_cons, this]
      exact ih loan_id e
theorem find?_dictSet_ne :
    ∀ (l : List (ℕ × HashstackLoanEntity)) {loan_id j : ℕ} (e : HashstackLoanEntity),
      j ≠ loan_id →
      (dictSet l loan_id e).find? (fun p => p.1 == j) = l.find? (fun p => p.1 == j) := by
  intro l
  induction l with
  | nil =>
    intro loan_id j e hne
    simp [dictSet, Ne.symm hne]
  | cons q rest ih =>
    intro loan_id j e hne
    by_cases hq : q.1 = loan_id
    · rw [dictSet, if_pos hq]
      have h₁ : (loan_id == j) = false := by simp [Ne.symm hne]
      have h₂ : (q.1 == j) = false := by simp [hq, Ne.symm hne]
      simp [List.find?_cons, h₁, h₂]
    · rw [dictSet, if_neg hq]
      by_cases hqj : q.1 = j
      · simp [List.find?_cons, hqj]
      · have : (q.1 == j) = false := by simp [hqj]
        simp only [List.find?_cons, this]
        exact ih e hne
theorem lookup_dictSet_self (s : HashstackState) (loan_id : ℕ)
    (e : HashstackLoanEntity) :
    HashstackState.lookup ⟨dictSet s.loan_entities loan_id e⟩ loan_id = some e := by
  unfold HashstackState.lookup
  rw [find?_dictSet_self]
  rfl
theorem lookup_dictSet_ne (s : HashstackState) {loan_id j : ℕ}
    (e : HashstackLoanEntity) (hne : j ≠ loan_id) :
    HashstackState.lookup ⟨dictSet s.loan_entities loan_id e⟩ j = s.lookup j := by
  unfold HashstackState.lookup
  rw [find?_dictSet_ne s.loan_entities e hne]

/-! ## Claim C1 -/

/-- C1 (amended): `get_events` sorts every batch ascending on
`(block_number, transaction_hash, type_priority)` with the exact priority
mapping `new_loan=0, loan_swap=1, liquidated=2, loan_withdrawal=3,
loan_repaid=4, loan_interest_deducted=5, collateral_added=6,
collateral_withdrawal=7`; consequently, provided no two events of the
batch share the same full sort key, any two input permutations of the
batch yield the same output sequence. -/
theorem get_events_deterministic_on_distinct_keys :
    (∀ l : List Event, (get_events l).Perm l ∧ (get_events l).Sorted keyR) ∧
    (event_order .new_loan = 0 ∧ event_order .loan_swap = 1 ∧
     event_order .liquidated = 2 ∧ event_order .loan_withdrawal = 3 ∧
     event_order .loan_repaid = 4 ∧ event_order .loan_interest_deducted = 5 ∧
     event_order .collateral_added = 6 ∧ event_order .collateral_withdrawal = 7) ∧
    (∀ l₁ l₂ : List Event, l₁.Perm l₂ →
      l₁.Pairwise (fun a b => sortKey a ≠ sortKey b) →
      get_events l₁ = get_events l₂) := by
  refine ⟨fun l => ⟨get_events_perm l, get_events_sorted l⟩,
    ⟨rfl, rfl, rfl, rfl, rfl, rfl, rfl, rfl⟩, ?_⟩
  intro l₁ l₂ hperm hinj
  apply sorted_perm_key_inj_eq
  · exact (get_events_perm l₁).trans (hperm.trans (get_events_perm l₂).symm)
  · exact get_events_sorted l₁
  · exact get_events_sorted l₂
  · exact (List.Perm.pairwise_iff (fun {x y} h e => h e.symm)
      (get_events_perm l₁)).mpr hinj

/-- C1 witness: the determinism conclusion applied to a concrete batch
with pairwise-distinct sort keys. -/
theorem get_events_deterministic_on_distinct_keys_witness :
    (([⟨1, 4, .new_loan, []⟩, ⟨1, 3, .liquidated, []⟩] : List Event).Perm
      [⟨1, 3, .liquidated, []⟩, ⟨1, 4, .new_loan, []⟩] ∧
     ([⟨1, 4, .new_loan, []⟩, ⟨1, 3, .liquidated, []⟩] : List Event).Pairwise
      (fun a b => sortKey a ≠ sortKey b)) ∧
    get_events [⟨1, 4, .new_loan, []⟩, ⟨1, 3, .liquidated, []⟩] =
      get_events [⟨1, 3, .liquidated, []⟩, ⟨1, 4, .new_loan, []⟩] :=
  ⟨⟨by decide, by decide⟩,
    get_events_deterministic_on_distinct_keys.2.2 _ _ (by decide) (by decide)⟩

/-- C1 counterexample: two distinct events tied on the full sort key (two
`collateral_added` events in the same block and transaction).  The two
input orders are permutations of the same batch, yet `get_events` returns
different sequences, refuting the claim's "any two input permutations of
the same batch yield the same output sequence". -/
theorem get_events_not_permutation_invariant :
    tieEventA ≠ tieEventB ∧ sortKey tieEventA = sortKey tieEventB ∧
    ([tieEventA, tieEventB] : List Event).Perm [tieEventB, tieEventA] ∧
    get_events [tieEventA, tieEventB] ≠ get_events [tieEventB, tieEventA] := by
  refine ⟨by decide, by decide, by decide, ?_⟩
  decide

/-! ## Claim C4 -/

/-- C4: `compute_health_factor` returns the positive-infinity sentinel
whenever the computed `debt_usd` equals zero (regardless of collateral
value, including zero collateral), returns `collateral_usd / debt_usd`
otherwise, and is a total function: no divide-by-zero failure path
exists. -/
theorem compute_health_factor_infinity_on_zero_debt
    (e : HashstackLoanEntity) (prices : Token → ℚ) (cuOpt duOpt : Option ℚ) :
    (duOpt.getD (e.compute_debt_usd prices) = 0 →
      e.compute_health_factor prices cuOpt duOpt = ⊤) ∧
    (duOpt.getD (e.compute_debt_usd prices) ≠ 0 →
      e.compute_health_factor prices cuOpt duOpt =
        ((cuOpt.getD (e.compute_collateral_usd prices) /
          duOpt.getD (e.compute_debt_usd prices) : ℚ) : WithTop ℚ)) := by
  constructor <;> intro h <;>
    simp [HashstackLoanEntity.compute_health_factor, h]

/-- C4 witness: a loan with 5 ETH of collateral and no debt has zero
computed debt and health factor `⊤`. -/
theorem compute_health_factor_infinity_on_zero_debt_witness :
    (none : Option ℚ).getD (zeroDebtEntity.compute_debt_usd onePrices) = 0 ∧
    zeroDebtEntity.compute_health_factor onePrices none none = ⊤ := by
  have h0 : (none : Option ℚ).getD (zeroDebtEntity.compute_debt_usd onePrices) = 0 := by
    simp [zeroDebtEntity, HashstackLoanEntity.compute_debt_usd, allTokens]
  exact ⟨h0,
    (compute_health_factor_infinity_on_zero_debt zeroDebtEntity onePrices none none).1 h0⟩

/-! ## Claim C5 -/

theorem health_factor_liquidation_threshold_ne_zero (c : ℕ) :
    health_factor_liquidation_threshold c ≠ 0 := by
  unfold health_factor_liquidation_threshold
  split
  · norm_num
  · split <;> norm_num

/-- C5: the liquidation-threshold multiplier is exactly 1.06 for
category 1, 1.05 for category 2, and 1.04 for any other value;
`compute_standardized_health_factor` returns
`collateral_usd / (threshold * debt_usd)` under exactly this mapping,
with the same infinity sentinel when `debt_usd` is zero; and the
liquidable-debt scan decides inclusion of a loan with the same
mapping. -/
theorem liquidation_threshold_mapping :
    (health_factor_liquidation_threshold 1 = 106 / 100 ∧
     health_factor_liquidation_threshold 2 = 105 / 100 ∧
     ∀ c : ℕ, c ≠ 1 → c ≠ 2 → health_factor_liquidation_threshold c = 104 / 100) ∧
    (∀ (e : HashstackLoanEntity) (prices : Token → ℚ) (cuOpt duOpt : Option ℚ),
      (duOpt.getD (e.compute_debt_usd prices) = 0 →
        e.compute_standardized_health_factor prices cuOpt duOpt = ⊤) ∧
      (duOpt.getD (e.compute_debt_usd prices) ≠ 0 →
        e.compute_standardized_health_factor prices cuOpt duOpt =
          ((cuOpt.getD (e.compute_collateral_usd prices) /
            (health_factor_liquidation_threshold e.debt_category *
             duOpt.getD (e.compute_debt_usd prices)) : ℚ) : WithTop ℚ))) ∧
    (∀ (i : ℕ) (le : HashstackLoanEntity) (prices : Token → ℚ)
        (ct : Token) (cp : ℚ) (dt : Token),
      HashstackState.compute_liquidable_debt_at_price ⟨[(i, le)]⟩ prices ct cp dt =
        if 0 < le.debt dt ∧
            le.compute_health_factor (Function.update prices ct cp) none
              (some (le.compute_debt_usd (Function.update prices ct cp))) <
            ((health_factor_liquidation_threshold le.debt_category : ℚ) : WithTop ℚ)
        then le.compute_debt_usd (Function.update prices ct cp)
        else 0) := by
  refine ⟨⟨rfl, rfl, ?_⟩, ?_, ?_⟩
  · intro c h1 h2
    unfold health_factor_liquidation_threshold
    rw [if_neg h1, if_neg h2]
  · intro e prices cuOpt duOpt
    constructor <;> intro h <;>
      simp only [HashstackLoanEntity.compute_standardized_health_factor]
    · rw [if_pos (by rw [h, mul_zero])]
    · rw [if_neg (by
        exact fun hz => h ((mul_eq_zero.mp hz).resolve_left
          (health_factor_liquidation_threshold_ne_zero e.debt_category)))]
  · intro i le prices ct cp dt
    unfold HashstackState.compute_liquidable_debt_at_price
    simp only [List.foldl_cons, List.foldl_nil]
    by_cases h1 : 0 < le.debt dt
    · by_cases h2 :
        ((health_factor_liquidation_threshold le.debt_category : ℚ) : WithTop ℚ) ≤
          le.compute_health_factor (Function.update prices ct cp) none
            (some (le.compute_debt_usd (Function.update prices ct cp)))
      · rw [if_pos h1, if_pos h2, if_neg (fun hc => absurd h2 (not_le.mpr hc.2))]
      · rw [if_pos h1, if_neg h2, if_pos ⟨h1, not_le.mp h2⟩]
        simp [HashstackLoanEntity.compute_debt_to_be_liquidated]
    · rw [if_neg h1, if_neg (fun hc => absurd hc.1 h1)]

/-- C5 witness: category 3 maps to 1.04, and a zero-debt loan gets the
infinity sentinel from `compute_standardized_health_factor`. -/
theorem liquidation_threshold_mapping_witness :
    ((3 : ℕ) ≠ 1 ∧ (3 : ℕ) ≠ 2 ∧
      health_factor_liquidation_threshold 3 = 104 / 100) ∧
    ((none : Option ℚ).getD (zeroDebtEntity.compute_debt_usd onePrices) = 0 ∧
      zeroDebtEntity.compute_standardized_health_factor onePrices none none = ⊤) := by
  have h0 : (none : Option ℚ).getD (zeroDebtEntity.compute_debt_usd onePrices) = 0 := by
    simp [zeroDebtEntity, HashstackLoanEntity.compute_debt_usd, allTokens]
  exact ⟨⟨by decide, by decide,
      liquidation_threshold_mapping.1.2.2 3 (by decide) (by decide)⟩,
    ⟨h0, (liquidation_threshold_mapping.2.1 zeroDebtEntity onePrices none none).1 h0⟩⟩

/-! ## Claim C3 -/

theorem liquidable_foldl_aux (cps : Token → ℚ) (dt : Token) :
    ∀ (l : List (ℕ × HashstackLoanEntity)) (a : ℚ),
      l.foldl
        (fun max_liquidated_amount p =>
          if 0 < p.2.debt dt then
            if ((health_factor_liquidation_threshold p.2.debt_category : ℚ) : WithTop ℚ) ≤
                p.2.compute_health_factor cps none (some (p.2.compute_debt_usd cps)) then
              max_liquidated_amount
            else
              max_liquidated_amount +
                p.2.compute_debt_to_be_liquidated (some (p.2.compute_debt_usd cps)) cps
          else max_liquidated_amount) a
      = a + (((l.map Prod.snd).filter (fun le =>
            decide (0 < le.debt dt) &&
            decide (le.compute_health_factor cps none (some (le.compute_debt_usd cps)) <
              ((health_factor_liquidation_threshold le.debt_category : ℚ) : WithTop ℚ)))).map
          (fun le => le.compute_debt_to_be_liquidated (some (le.compute_debt_usd cps)) cps)).sum := by
  intro l
  induction l with
  | nil => intro a; simp
  | cons p rest ih =>
    intro a
    simp only [List.foldl_cons, List.map_cons, List.filter_cons]
    by_cases h1 : 0 < p.2.debt dt
    · by_cases h2 :
        ((health_factor_liquidation_threshold p.2.debt_category : ℚ) : WithTop ℚ) ≤
          p.2.compute_health_factor cps none (some (p.2.compute_debt_usd cps))
      · rw [if_pos h1, if_pos h2, if_neg (by simp [h1, not_lt.mpr h2]), ih]
      · rw [if_pos h1, if_neg h2, if_pos (by simp [h1, not_le.mp h2]), ih]
        simp only [List.map_cons, List.sum_cons]
        ring
    · rw [if_neg h1, if_neg (by simp [h1]), ih]

/-- C3: `compute_liquidable_debt_at_price` overrides the collateral
token's price, then sums `compute_debt_to_be_liquidated` (the loan's
`debt_usd` under the modified prices) over exactly those loans that hold
a strictly positive amount of `debt_token` in their debt set and whose
health factor under the modified prices is strictly below their
category's liquidation threshold; every other loan contributes
nothing. -/
theorem compute_liquidable_debt_at_price_eq_spec (s : HashstackState)
    (prices : Token → ℚ) (collateral_token : Token)
    (collateral_token_price : ℚ) (debt_token : Token) :
    s.compute_liquidable_debt_at_price prices collateral_token
        collateral_token_price debt_token =
      liquidableDebtSpec s prices collateral_token collateral_token_price
        debt_token :=
  (liquidable_foldl_aux
      (Function.update prices collateral_token collateral_token_price)
      debt_token s.loan_entities 0).trans (zero_add _)

/-! ## Claim C10 -/

/-- C10: both user counts deduplicate by user with set semantics, every
user counted as an active borrower (a loan with debt) is also counted as
an active user (a loan with collateral or debt), and therefore
`compute_number_of_active_borrowers ≤ compute_number_of_active_users` on
every state store. -/
theorem active_borrowers_le_active_users (s : HashstackState) :
    (((s.loan_entities.filter (fun p => decide p.2.has_debt)).map
        (fun p => p.2.user)).toFinset ⊆
      ((s.loan_entities.filter
        (fun p => decide (p.2.has_collateral ∨ p.2.has_debt))).map
        (fun p => p.2.user)).toFinset) ∧
    s.compute_number_of_active_borrowers ≤ s.compute_number_of_active_users := by
  have hsub :
      (((s.loan_entities.filter (fun p => decide p.2.has_debt)).map
          (fun p => p.2.user)).toFinset ⊆
        ((s.loan_entities.filter
          (fun p => decide (p.2.has_collateral ∨ p.2.has_debt))).map
          (fun p => p.2.user)).toFinset) := by
    intro x hx
    simp only [List.mem_toFinset, List.mem_map] at hx ⊢
    obtain ⟨p, hp, hpu⟩ := hx
    rw [List.mem_filter] at hp
    refine ⟨p, List.mem_filter.mpr ⟨hp.1, ?_⟩, hpu⟩
    have hd := of_decide_eq_true hp.2
    exact decide_eq_true (Or.inr hd)
  exact ⟨hsub, Finset.card_le_card hsub⟩

/-! ## Claim C2 -/

theorem process_new_loan_ok_shape {s s' : HashstackState} {ev : Event}
    (hok : s.process_new_loan_event ev = .ok s') :
    ∃ loan_id le, s' = ⟨dictSet s.loan_entities loan_id le⟩ ∧
      collateralInvariant le := by
  unfold HashstackState.process_new_loan_event at hok
  obtain ⟨loan_id, h0, hok⟩ := bind_ok hok
  obtain ⟨user, h1, hok⟩ := bind_ok hok
  obtain ⟨dt, h2, hok⟩ := bind_ok hok
  obtain ⟨dfa, h4, hok⟩ := bind_ok hok
  obtain ⟨bct, h6, hok⟩ := bind_ok hok
  obtain ⟨bcfa, h7, hok⟩ := bind_ok hok
  obtain ⟨cat, h10, hok⟩ := bind_ok hok
  obtain ⟨oc, hoc, hok⟩ := bind_ok hok
  simp only [Except.ok.injEq] at hok
  subst hok
  exact ⟨loan_id, _, rfl, fun t => rfl⟩

theorem process_collateral_added_ok_shape {s s' : HashstackState} {ev : Event}
    (hok : s.process_collateral_added_event ev = .ok s') :
    ∃ loan_id le, s' = ⟨dictSet s.loan_entities loan_id le⟩ ∧
      collateralInvariant le := by
  unfold HashstackState.process_collateral_added_event at hok
  obtain ⟨loan_id, h9, hok⟩ := bind_ok hok
  obtain ⟨oct, h0, hok⟩ := bind_ok hok
  obtain ⟨ocfa, h3, hok⟩ := bind_ok hok
  obtain ⟨le, hle, hok⟩ := bind_ok hok
  simp only [Except.ok.injEq] at hok
  subst hok
  exact ⟨loan_id, _, rfl, fun t => rfl⟩

theorem process_collateral_withdrawal_ok_shape {s s' : HashstackState} {ev : Event}
    (hok : s.process_collateral_withdrawal_event ev = .ok s') :
    ∃ loan_id le, s' = ⟨dictSet s.loan_entities loan_id le⟩ ∧
      collateralInvariant le := by
  unfold HashstackState.process_collateral_withdrawal_event at hok
  obtain ⟨loan_id, h9, hok⟩ := bind_ok hok
  obtain ⟨oct, h0, hok⟩ := bind_ok hok
  obtain ⟨ocfa, h3, hok⟩ := bind_ok hok
  obtain ⟨le, hle, hok⟩ := bind_ok hok
  simp only [Except.ok.injEq] at hok
  subst hok
  exact ⟨loan_id, _, rfl, fun t => rfl⟩

theorem process_loan_withdrawal_ok_shape {s s' : HashstackState} {ev : Event}
    (hok : s.process_loan_withdrawal_event ev = .ok s') :
    ∃ loan_id le, s' = ⟨dictSet s.loan_entities loan_id le⟩ ∧
      collateralInvariant le := by
  unfold HashstackState.process_loan_withdrawal_event at hok
  obtain ⟨loan_id, h0, hok⟩ := bind_ok hok
  obtain ⟨user, h1, hok⟩ := bind_ok hok
  obtain ⟨le, hle, hok⟩ := bind_ok hok
  obtain ⟨u, hassert, hok⟩ := bind_ok hok
  obtain ⟨dt, h2, hok⟩ := bind_ok hok
  obtain ⟨dfa, h4, hok⟩ := bind_ok hok
  obtain ⟨bct, h6, hok⟩ := bind_ok hok
  obtain ⟨bcfa, h7, hok⟩ := bind_ok hok
  obtain ⟨cat, h10, hok⟩ := bind_ok hok
  simp only [Except.ok.injEq] at hok
  subst hok
  exact ⟨loan_id, _, rfl, fun t => rfl⟩

theorem process_loan_repaid_ok_shape {s s' : HashstackState} {ev : Event}
    (hok : s.process_loan_repaid_event ev = .ok s') :
    ∃ loan_id le, s' = ⟨dictSet s.loan_entities loan_id le⟩ ∧
      collateralInvariant le := by
  unfold HashstackState.process_loan_repaid_event at hok
  obtain ⟨loan_id, h0, hok⟩ := bind_ok hok
  obtain ⟨user, h1, hok⟩ := bind_ok hok
  obtain ⟨le, hle, hok⟩ := bind_ok hok
  obtain ⟨u, hassert, hok⟩ := bind_ok hok
  obtain ⟨dt, h2, hok⟩ := bind_ok hok
  obtain ⟨bct, h6, hok⟩ := bind_ok hok
  obtain ⟨bcfa, h7, hok⟩ := bind_ok hok
  obtain ⟨u', hzero, hok⟩ := bind_ok hok
  obtain ⟨cat, h10, hok⟩ := bind_ok hok
  simp only [Except.ok.injEq] at hok
  subst hok
  exact ⟨loan_id, _, rfl, fun t => rfl⟩

theorem process_loan_swap_ok_shape {s s' : HashstackState} {ev : Event}
    (hok : s.process_loan_swap_event ev = .ok s') :
    ∃ loan_id le, s' = ⟨dictSet s.loan_entities loan_id le⟩ ∧
      collateralInvariant le := by
  unfold HashstackState.process_loan_swap_event at hok
  obtain ⟨old_loan_id, h0, hok⟩ := bind_ok hok
  obtain ⟨old_user, h1, hok⟩ := bind_ok hok
  obtain ⟨le, hle, hok⟩ := bind_ok hok
  obtain ⟨u, hassert, hok⟩ := bind_ok hok
  obtain ⟨new_loan_id, h14, hok⟩ := bind_ok hok
  obtain ⟨new_user, h15, hok⟩ := bind_ok hok
  obtain ⟨u₁, hid, hok⟩ := bind_ok hok
  obtain ⟨u₂, huser, hok⟩ := bind_ok hok
  obtain ⟨ndt, h16, hok⟩ := bind_ok hok
  obtain ⟨ndfa, h18, hok⟩ := bind_ok hok
  obtain ⟨nbct, h20, hok⟩ := bind_ok hok
  obtain ⟨nbcfa, h21, hok⟩ := bind_ok hok
  obtain ⟨ncat, h24, hok⟩ := bind_ok hok
  obtain ⟨u₃, hdebt, hok⟩ := bind_ok hok
  simp only [Except.ok.injEq] at hok
  subst hok
  exact ⟨new_loan_id, _, rfl, fun t => rfl⟩

theorem process_loan_interest_deducted_ok_shape {s s' : HashstackState} {ev : Event}
    (hok : s.process_loan_interest_deducted_event ev = .ok s') :
    ∃ loan_id le, s' = ⟨dictSet s.loan_entities loan_id le⟩ ∧
      collateralInvariant le := by
  unfold HashstackState.process_loan_interest_deducted_event at hok
  obtain ⟨loan_id, h11, hok⟩ := bind_ok hok
  obtain ⟨oct, h0, hok⟩ := bind_ok hok
  obtain ⟨ocfa, h3, hok⟩ := bind_ok hok
  obtain ⟨le, hle, hok⟩ := bind_ok hok
  simp only [Except.ok.injEq] at hok
  subst hok
  exact ⟨loan_id, _, rfl, fun t => rfl⟩

theorem process_liquidated_ok_shape {s s' : HashstackState} {ev : Event}
    (hok : s.process_liquidated_event ev = .ok s') :
    ∃ loan_id le, s' = ⟨dictSet s.loan_entities loan_id le⟩ ∧
      collateralInvariant le := by
  unfold HashstackState.process_liquidated_event at hok
  obtain ⟨loan_id, h0, hok⟩ := bind_ok hok
  obtain ⟨user, h1, hok⟩ := bind_ok hok
  obtain ⟨le, hle, hok⟩ := bind_ok hok
  obtain ⟨u, hassert, hok⟩ := bind_ok hok
  obtain ⟨dt, h2, hok⟩ := bind_ok hok
  obtain ⟨bct, h6, hok⟩ := bind_ok hok
  obtain ⟨bcfa, h7, hok⟩ := bind_ok hok
  obtain ⟨u', hzero, hok⟩ := bind_ok hok
  obtain ⟨cat, h10, hok⟩ := bind_ok hok
  simp only [Except.ok.injEq] at hok
  subst hok
  exact ⟨loan_id, _, rfl, fun t => rfl⟩

/-- Every successful handler stores exactly one rewritten entity, and
that entity satisfies the collateral invariant by construction. -/
theorem process_event_ok_shape {s s' : HashstackState} {ev : Event}
    (hok : s.process_event ev = .ok s') :
    ∃ loan_id le, s' = ⟨dictSet s.loan_entities loan_id le⟩ ∧
      collateralInvariant le := by
  obtain ⟨bn, tx, key, data⟩ := ev
  cases key
  · exact process_new_loan_ok_shape hok
  · exact process_collateral_added_ok_shape hok
  · exact process_collateral_withdrawal_ok_shape hok
  · exact process_loan_withdrawal_ok_shape hok
  · exact process_loan_repaid_ok_shape hok
  · exact process_loan_swap_ok_shape hok
  · exact process_loan_interest_deducted_ok_shape hok
  · exact process_liquidated_ok_shape hok

/-- C2: if every loan entity of the store satisfies the collateral
invariant `collateral[t] = original_collateral[t] + borrowed_collateral[t]`
for every known token `t`, then after any successful state-transition
handler every loan entity of the resulting store still satisfies it. -/
theorem process_event_preserves_collateral_invariant
    (s : HashstackState) (ev : Event)
    (hinv : ∀ p ∈ s.loan_entities, collateralInvariant p.2) :
    ∀ s', s.process_event ev = .ok s' →
      ∀ p ∈ s'.loan_entities, collateralInvariant p.2 := by
  intro s' hok p hp
  obtain ⟨loan_id, le, rfl, hle⟩ := process_event_ok_shape hok
  rcases mem_dictSet hp with rfl | hmem
  · exact hle
  · exact hinv p hmem

/-- C2 witness: preservation applied to a one-loan store (which satisfies
the invariant) and a concrete `collateral_added` event. -/
theorem process_event_preserves_collateral_invariant_witness :
    (∀ p ∈ oneLoanState.loan_entities, collateralInvariant p.2) ∧
    (∀ s', oneLoanState.process_event addCollateralEv = .ok s' →
      ∀ p ∈ s'.loan_entities, collateralInvariant p.2) := by
  have hinv : ∀ p ∈ oneLoanState.loan_entities, collateralInvariant p.2 := by
    intro p hp
    have hp' : p = (7, zeroDebtEntity) := by
      simpa [oneLoanState] using hp
    subst hp'
    intro t
    cases t <;> simp [zeroDebtEntity, singleTokenAmount]
  exact ⟨hinv,
    process_event_preserves_collateral_invariant oneLoanState addCollateralEv hinv⟩

/-! ## Claim C6 -/

/-- Characterization of a successful `process_liquidated_event`: the
stored entity is rewritten with zero debt, the (asserted-zero) borrowed
collateral, no original collateral, the recomputed collateral, and the
event's debt category. -/
theorem process_liquidated_event_ok_of {s : HashstackState} {ev : Event}
    {loan_id user bcfa cat : ℕ} {dt bct : Token} {le : HashstackLoanEntity}
    (h0 : fieldAt ev.data 0 = .ok loan_id)
    (h1 : fieldAt ev.data 1 = .ok user)
    (hle : s.lookup loan_id = some le)
    (huser : le.user = user)
    (h2 : symbolAt ev.data 2 = .ok dt)
    (h6 : symbolAt ev.data 6 = .ok bct)
    (h7 : fieldAt ev.data 7 = .ok bcfa)
    (hz : (bcfa : ℚ) = 0)
    (h10 : fieldAt ev.data 10 = .ok cat) :
    s.process_liquidated_event ev = .ok ⟨dictSet s.loan_entities loan_id
      { user := le.user
        debt_category := cat
        original_collateral := fun _ => 0
        borrowed_collateral := singleTokenAmount bct (bcfa : ℚ)
        collateral := fun t => 0 + singleTokenAmount bct (bcfa : ℚ) t
        debt := singleTokenAmount dt 0 }⟩ := by
  have ha1 : checkAssert (le.user = user) = .ok () := checkAssert_ok huser
  have ha2 : checkAssert ((bcfa : ℚ) = 0) = .ok () := checkAssert_ok hz
  simp only [HashstackState.process_liquidated_event, h0, h1, getLoan_ok hle,
    ha1, h2, h6, h7, ha2, h10, ok_bind]
  rfl

/-- C6: for a stored loan with matching event user and a zero event
borrowed-collateral amount, a `liquidated` event zeroes the debt and the
borrowed collateral, clears the original collateral entirely, recomputes
the collateral (all zero), and overwrites the debt category. -/
theorem liquidated_event_clears_loan {s : HashstackState} {ev : Event}
    {loan_id user bcfa cat : ℕ} {dt bct : Token} {le : HashstackLoanEntity}
    (h0 : fieldAt ev.data 0 = .ok loan_id)
    (h1 : fieldAt ev.data 1 = .ok user)
    (hle : s.lookup loan_id = some le)
    (huser : le.user = user)
    (h2 : symbolAt ev.data 2 = .ok dt)
    (h6 : symbolAt ev.data 6 = .ok bct)
    (h7 : fieldAt ev.data 7 = .ok bcfa)
    (hz : (bcfa : ℚ) = 0)
    (h10 : fieldAt ev.data 10 = .ok cat) :
    ∃ s', s.process_liquidated_event ev = .ok s' ∧
      ∃ le', s'.lookup loan_id = some le' ∧
        (∀ t, le'.debt t = 0) ∧
        (∀ t, le'.borrowed_collateral t = 0) ∧
        (∀ t, le'.original_collateral t = 0) ∧
        (∀ t, le'.collateral t = 0) ∧
        le'.debt_category = cat := by
  refine ⟨_, process_liquidated_event_ok_of h0 h1 hle huser h2 h6 h7 hz h10,
    _, lookup_dictSet_self _ _ _, ?_, ?_, ?_, ?_, rfl⟩
  · intro t; simp [singleTokenAmount]
  · intro t; simp [singleTokenAmount, hz]
  · intro t; rfl
  · intro t; simp [singleTokenAmount, hz]

/-- C6 witness: the spec scenario — loan 7 holds 70 wBTC of collateral
before the liquidation and nothing after. -/
theorem liquidated_event_clears_loan_witness :
    (stateLoan7.lookup 7 = some loan7Before ∧ loan7Before.user = 111 ∧
      ((0 : ℕ) : ℚ) = 0 ∧ loan7Before.collateral .wBTC = 70) ∧
    (∃ s', stateLoan7.process_liquidated_event liquidateEv7 = .ok s' ∧
      ∃ le', s'.lookup 7 = some le' ∧
        (∀ t, le'.debt t = 0) ∧
        (∀ t, le'.borrowed_collateral t = 0) ∧
        (∀ t, le'.original_collateral t = 0) ∧
        (∀ t, le'.collateral t = 0) ∧
        le'.debt_category = 2) := by
  refine ⟨⟨rfl, rfl, by norm_num, by norm_num [loan7Before, singleTokenAmount]⟩, ?_⟩
  exact @liquidated_event_clears_loan stateLoan7 liquidateEv7 7 111 0 2
    .ETH .wBTC loan7Before rfl rfl rfl rfl rfl rfl rfl (by norm_num) rfl

/-! ## Claim C7 -/

/-- Characterization of a successful `process_new_loan_event`: no
precondition beyond a decodable payload; the decoded entity is written at
the decoded loan id with dict-overwrite semantics. -/
theorem process_new_loan_event_ok_of {s : HashstackState} {ev : Event}
    {L u dfa bcfa cat : ℕ} {dt bct : Token} {oc : Token × ℚ}
    (h0 : fieldAt ev.data 0 = .ok L)
    (h1 : fieldAt ev.data 1 = .ok u)
    (h2 : symbolAt ev.data 2 = .ok dt)
    (h4 : fieldAt ev.data 4 = .ok dfa)
    (h6 : symbolAt ev.data 6 = .ok bct)
    (h7 : fieldAt ev.data 7 = .ok bcfa)
    (h10 : fieldAt ev.data 10 = .ok cat)
    (hoc : HashstackState.decode_new_loan_original_collateral ev.data = .ok oc) :
    s.process_new_loan_event ev = .ok ⟨dictSet s.loan_entities L
      (newLoanEntity u cat oc.1 oc.2 bct (bcfa : ℚ) dt (dfa : ℚ))⟩ := by
  simp only [HashstackState.process_new_loan_event, h0, h1, h2, h4, h6, h7,
    h10, hoc, ok_bind]
  rfl

/-- The stored-user asserts of the four loan-record handlers fail hard on
a mismatch. -/
theorem user_mismatch_asserts_fail {s : HashstackState} {ev : Event}
    {L u : ℕ} {le : HashstackLoanEntity}
    (h0 : fieldAt ev.data 0 = .ok L)
    (h1 : fieldAt ev.data 1 = .ok u)
    (hle : s.lookup L = some le)
    (hne : le.user ≠ u) :
    s.process_loan_withdrawal_event ev = .error .assertFailed ∧
    s.process_loan_repaid_event ev = .error .assertFailed ∧
    s.process_loan_swap_event ev = .error .assertFailed ∧
    s.process_liquidated_event ev = .error .assertFailed := by
  have ha : checkAssert (le.user = u) = .error .assertFailed := checkAssert_fail hne
  refine ⟨?_, ?_, ?_, ?_⟩
  · simp only [HashstackState.process_loan_withdrawal_event, h0, h1,
      getLoan_ok hle, ha, ok_bind, error_bind]
  · simp only [HashstackState.process_loan_repaid_event, h0, h1,
      getLoan_ok hle, ha, ok_bind, error_bind]
  · simp only [HashstackState.process_loan_swap_event, h0, h1,
      getLoan_ok hle, ha, ok_bind, error_bind]
  · simp only [HashstackState.process_liquidated_event, h0, h1,
      getLoan_ok hle, ha, ok_bind, error_bind]

/-- The zero-borrowed-collateral asserts of `loan_repaid` and
`liquidated` fail hard on a nonzero amount. -/
theorem nonzero_amount_asserts_fail {s : HashstackState} {ev : Event}
    {L u bcfa : ℕ} {dt bct : Token} {le : HashstackLoanEntity}
    (h0 : fieldAt ev.data 0 = .ok L)
    (h1 : fieldAt ev.data 1 = .ok u)
    (hle : s.lookup L = some le)
    (huser : le.user = u)
    (h2 : symbolAt ev.data 2 = .ok dt)
    (h6 : symbolAt ev.data 6 = .ok bct)
    (h7 : fieldAt ev.data 7 = .ok bcfa)
    (hnz : (bcfa : ℚ) ≠ 0) :
    s.process_loan_repaid_event ev = .error .assertFailed ∧
    s.process_liquidated_event ev = .error .assertFailed := by
  have ha1 : checkAssert (le.user = u) = .ok () := checkAssert_ok huser
  have ha2 : checkAssert ((bcfa : ℚ) = 0) = .error .assertFailed :=
    checkAssert_fail hnz
  constructor
  · simp only [HashstackState.process_loan_repaid_event, h0, h1,
      getLoan_ok hle, ha1, h2, h6, h7, ha2, ok_bind, error_bind]
  · simp only [HashstackState.process_liquidated_event, h0, h1,
      getLoan_ok hle, ha1, h2, h6, h7, ha2, ok_bind, error_bind]

/-- C7 (amended): `process_new_loan_event` has no loan-id-absence
precondition — with a decodable payload it succeeds even when the loan id
is already stored, silently replacing the stored entity — while the
preconditions the handlers do check (stored-user match in
`loan_withdrawal`, `loan_repaid`, `loan_swap` and `liquidated`; zero
borrowed-collateral amount in `loan_repaid` and `liquidated`) fail with a
hard assertion failure rather than being silently recovered. -/
theorem new_loan_overwrites_and_asserts_fail :
    (∀ (s : HashstackState) (ev : Event) (L u dfa bcfa cat : ℕ)
        (dt bct : Token) (oc : Token × ℚ),
      fieldAt ev.data 0 = .ok L → fieldAt ev.data 1 = .ok u →
      symbolAt ev.data 2 = .ok dt → fieldAt ev.data 4 = .ok dfa →
      symbolAt ev.data 6 = .ok bct → fieldAt ev.data 7 = .ok bcfa →
      fieldAt ev.data 10 = .ok cat →
      HashstackState.decode_new_loan_original_collateral ev.data = .ok oc →
      ∃ s', s.process_new_loan_event ev = .ok s' ∧
        s'.lookup L =
          some (newLoanEntity u cat oc.1 oc.2 bct (bcfa : ℚ) dt (dfa : ℚ))) ∧
    (∀ (s : HashstackState) (ev : Event) (L u : ℕ) (le : HashstackLoanEntity),
      fieldAt ev.data 0 = .ok L → fieldAt ev.data 1 = .ok u →
      s.lookup L = some le → le.user ≠ u →
      s.process_loan_withdrawal_event ev = .error .assertFailed ∧
      s.process_loan_repaid_event ev = .error .assertFailed ∧
      s.process_loan_swap_event ev = .error .assertFailed ∧
      s.process_liquidated_event ev = .error .assertFailed) ∧
    (∀ (s : HashstackState) (ev : Event) (L u bcfa : ℕ) (dt bct : Token)
        (le : HashstackLoanEntity),
      fieldAt ev.data 0 = .ok L → fieldAt ev.data 1 = .ok u →
      s.lookup L = some le → le.user = u →
      symbolAt ev.data 2 = .ok dt → symbolAt ev.data 6 = .ok bct →
      fieldAt ev.data 7 = .ok bcfa → (bcfa : ℚ) ≠ 0 →
      s.process_loan_repaid_event ev = .error .assertFailed ∧
      s.process_liquidated_event ev = .error .assertFailed) := by
  refine ⟨?_, ?_, ?_⟩
  · intro s ev L u dfa bcfa cat dt bct oc h0 h1 h2 h4 h6 h7 h10 hoc
    exact ⟨_, process_new_loan_event_ok_of h0 h1 h2 h4 h6 h7 h10 hoc,
      lookup_dictSet_self _ _ _⟩
  · intro s ev L u le h0 h1 hle hne
    exact user_mismatch_asserts_fail h0 h1 hle hne
  · intro s ev L u bcfa dt bct le h0 h1 hle huser h2 h6 h7 hnz
    exact nonzero_amount_asserts_fail h0 h1 hle huser h2 h6 h7 hnz

/-- C7 witness: the overwrite branch applied to the concrete present-id
scenario, and the assert branch applied to a user mismatch. -/
theorem new_loan_overwrites_and_asserts_fail_witness :
    (∃ s', stateLoan7.process_new_loan_event newLoanEv7 = .ok s' ∧
      s'.lookup 7 = some (newLoanEntity 222 3 .ETH ((60 : ℕ) : ℚ) .ETH
        ((20 : ℕ) : ℚ) .ETH ((40 : ℕ) : ℚ))) ∧
    stateLoan7.process_loan_repaid_event
      ⟨21, 3, .loan_repaid, [7, 999, ETH_ADDRESS, 0, 0, 0, WBTC_ADDRESS, 0, 0, 0, 1]⟩ =
      .error .assertFailed := by
  constructor
  · exact new_loan_overwrites_and_asserts_fail.1 stateLoan7 newLoanEv7 7 222 40 20 3
      .ETH .ETH (.ETH, ((60 : ℕ) : ℚ)) rfl rfl rfl rfl rfl rfl rfl rfl
  · exact (new_loan_overwrites_and_asserts_fail.2.1 stateLoan7
      ⟨21, 3, .loan_repaid, [7, 999, ETH_ADDRESS, 0, 0, 0, WBTC_ADDRESS, 0, 0, 0, 1]⟩
      7 999 loan7Before rfl rfl rfl (by decide)).2.1

/-- C7 counterexample: a `new_loan` event for the already-present loan
id 7 succeeds and silently replaces the stored entity, refuting the
claim's "a new_loan event for an already-present loan id must fail, not
silently replace the stored entity". -/
theorem new_loan_present_id_does_not_fail :
    stateLoan7.lookup 7 = some loan7Before ∧
    ∃ s₁, stateLoan7.process_new_loan_event newLoanEv7 = .ok s₁ ∧
      ∃ le', s₁.lookup 7 = some le' ∧ le'.user = 222 ∧
        le'.debt_category = 3 ∧ le' ≠ loan7Before := by
  refine ⟨rfl, _,
    @process_new_loan_event_ok_of stateLoan7 newLoanEv7 7 222 40 20 3 .ETH .ETH
      (.ETH, ((60 : ℕ) : ℚ)) rfl rfl rfl rfl rfl rfl rfl rfl,
    _, lookup_dictSet_self _ _ _, rfl, rfl, ?_⟩
  intro hEq
  have hcat := congrArg HashstackLoanEntity.debt_category hEq
  simp [newLoanEntity, loan7Before] at hcat

/-! ## Claim C8 -/

theorem fieldAt_ok {data : List ℕ} {i v : ℕ} (h : data.get? i = some v) :
    fieldAt data i = .ok v := by
  unfold fieldAt; rw [h]

theorem fieldAt_none {data : List ℕ} {i : ℕ} (h : data.get? i = none) :
    fieldAt data i = .error (.fieldAbsent i) := by
  unfold fieldAt; rw [h]

/-- C8 (amended): for the loan-creation event only, decoding attempts the
alternate layout (token at index 13, amount at index 16) exactly when the
address at the primary index 14 is present but unknown to the token
registry; a field absent at an expected index is non-recoverable for
every event type, the loan-creation event included (index 14 or 17 absent
fails without attempting the alternate layout). -/
theorem decode_new_loan_fallback_spec :
    (∀ (data : List ℕ) (a : ℕ), data.get? 14 = some a → get_symbol a = none →
      HashstackState.decode_new_loan_original_collateral data =
        (do
          let t ← symbolAt data 13
          let v ← fieldAt data 16
          Except.ok (t, (v : ℚ)))) ∧
    (∀ data : List ℕ, data.get? 14 = none →
      HashstackState.decode_new_loan_original_collateral data =
        .error (.fieldAbsent 14)) ∧
    (∀ (data : List ℕ) (a : ℕ) (t : Token), data.get? 14 = some a →
      get_symbol a = some t → data.get? 17 = none →
      HashstackState.decode_new_loan_original_collateral data =
        .error (.fieldAbsent 17)) ∧
    (∀ (s : HashstackState) (ev : Event), ev.data = [] →
      s.process_collateral_added_event ev = .error (.fieldAbsent 9) ∧
      s.process_collateral_withdrawal_event ev = .error (.fieldAbsent 9) ∧
      s.process_loan_withdrawal_event ev = .error (.fieldAbsent 0) ∧
      s.process_loan_repaid_event ev = .error (.fieldAbsent 0) ∧
      s.process_loan_swap_event ev = .error (.fieldAbsent 0) ∧
      s.process_loan_interest_deducted_event ev = .error (.fieldAbsent 11) ∧
      s.process_liquidated_event ev = .error (.fieldAbsent 0)) := by
  refine ⟨?_, ?_, ?_, ?_⟩
  · intro data a h14 hsym
    simp only [HashstackState.decode_new_loan_original_collateral,
      fieldAt_ok h14, ok_bind, hsym]
  · intro data h14
    simp only [HashstackState.decode_new_loan_original_collateral,
      fieldAt_none h14, error_bind]
  · intro data a t h14 hsym h17
    simp only [HashstackState.decode_new_loan_original_collateral,
      fieldAt_ok h14, ok_bind, hsym, fieldAt_none h17, error_bind]
  · intro s ev hdata
    have h0 : fieldAt ev.data 0 = .error (.fieldAbsent 0) := by
      rw [hdata]; rfl
    have h9 : fieldAt ev.data 9 = .error (.fieldAbsent 9) := by
      rw [hdata]; rfl
    have h11 : fieldAt ev.data 11 = .error (.fieldAbsent 11) := by
      rw [hdata]; rfl
    refine ⟨?_, ?_, ?_, ?_, ?_, ?_, ?_⟩
    · simp only [HashstackState.process_collateral_added_event, h9, error_bind]
    · simp only [HashstackState.process_collateral_withdrawal_event, h9, error_bind]
    · simp only [HashstackState.process_loan_withdrawal_event, h0, error_bind]
    · simp only [HashstackState.process_loan_repaid_event, h0, error_bind]
    · simp only [HashstackState.process_loan_swap_event, h0, error_bind]
    · simp only [HashstackState.process_loan_interest_deducted_event, h11, error_bind]
    · simp only [HashstackState.process_liquidated_event, h0, error_bind]

/-- C8 witness: the fallback branch evaluated on the concrete
short-layout payload and the non-recoverable branch on an empty
payload. -/
theorem decode_new_loan_fallback_spec_witness :
    (shortLayoutData.get? 14 = some 999 ∧ get_symbol 999 = none ∧
      HashstackState.decode_new_loan_original_collateral shortLayoutData =
        (do
          let t ← symbolAt shortLayoutData 13
          let v ← fieldAt shortLayoutData 16
          Except.ok (t, (v : ℚ)))) ∧
    ((⟨0, 0, .collateral_added, []⟩ : Event).data = [] ∧
      HashstackState.process_collateral_added_event ⟨[]⟩
        ⟨0, 0, .collateral_added, []⟩ = .error (.fieldAbsent 9)) :=
  ⟨⟨rfl, rfl, decode_new_loan_fallback_spec.1 shortLayoutData 999 rfl rfl⟩,
   ⟨rfl, (decode_new_loan_fallback_spec.2.2.2 ⟨[]⟩
      ⟨0, 0, .collateral_added, []⟩ rfl).1⟩⟩

/-- C8 counterexample: with an unknown address at the primary index 14,
decoding recovers through the alternate layout instead of failing; with a
field absent at index 17 (and a registered address at 14), decoding fails
without attempting the alternate layout even though that layout is valid.
Both refute the claim's description of the recoverable case. -/
theorem decode_fallback_on_unknown_token_not_absent_field :
    shortLayoutData.get? 14 = some 999 ∧ get_symbol 999 = none ∧
    HashstackState.decode_new_loan_original_collateral shortLayoutData =
      .ok (.ETH, ((60 : ℕ) : ℚ)) ∧
    absent17Data.get? 17 = none ∧
    symbolAt absent17Data 13 = .ok .ETH ∧
    fieldAt absent17Data 16 = .ok 60 ∧
    HashstackState.decode_new_loan_original_collateral absent17Data =
      .error (.fieldAbsent 17) :=
  ⟨rfl, rfl, rfl, rfl, rfl, rfl, rfl⟩

/-! ## Claim C9 -/

/-- Characterization of a successful `process_loan_repaid_event`: debt
zeroed for the debt token (all other tokens already zero), borrowed
collateral rewritten with the asserted-zero amount, original collateral
untouched, collateral recomputed, category overwritten. -/
theorem process_loan_repaid_event_ok_of {s : HashstackState} {ev : Event}
    {loan_id user bcfa cat : ℕ} {dt bct : Token} {le : HashstackLoanEntity}
    (h0 : fieldAt ev.data 0 = .ok loan_id)
    (h1 : fieldAt ev.data 1 = .ok user)
    (hle : s.lookup loan_id = some le)
    (huser : le.user = user)
    (h2 : symbolAt ev.data 2 = .ok dt)
    (h6 : symbolAt ev.data 6 = .ok bct)
    (h7 : fieldAt ev.data 7 = .ok bcfa)
    (hz : (bcfa : ℚ) = 0)
    (h10 : fieldAt ev.data 10 = .ok cat) :
    s.process_loan_repaid_event ev = .ok ⟨dictSet s.loan_entities loan_id
      { user := le.user
        debt_category := cat
        original_collateral := le.original_collateral
        borrowed_collateral := singleTokenAmount bct (bcfa : ℚ)
        collateral := fun t =>
          le.original_collateral t + singleTokenAmount bct (bcfa : ℚ) t
        debt := singleTokenAmount dt 0 }⟩ := by
  have ha1 : checkAssert (le.user = user) = .ok () := checkAssert_ok huser
  have ha2 : checkAssert ((bcfa : ℚ) = 0) = .ok () := checkAssert_ok hz
  simp only [HashstackState.process_loan_repaid_event, h0, h1, getLoan_ok hle,
    ha1, h2, h6, h7, ha2, h10, ok_bind]
  rfl

/-- Characterization of a successful `process_collateral_added_event`:
original collateral rewritten, collateral recomputed, everything else
untouched. -/
theorem process_collateral_added_event_ok_of {s : HashstackState} {ev : Event}
    {loan_id ocfa : ℕ} {oct : Token} {le : HashstackLoanEntity}
    (h9 : fieldAt ev.data 9 = .ok loan_id)
    (h0 : symbolAt ev.data 0 = .ok oct)
    (h3 : fieldAt ev.data 3 = .ok ocfa)
    (hle : s.lookup loan_id = some le) :
    s.process_collateral_added_event ev = .ok ⟨dictSet s.loan_entities loan_id
      { user := le.user
        debt_category := le.debt_category
        original_collateral := singleTokenAmount oct (ocfa : ℚ)
        borrowed_collateral := le.borrowed_collateral
        collateral := fun t =>
          singleTokenAmount oct (ocfa : ℚ) t + le.borrowed_collateral t
        debt := le.debt }⟩ := by
  simp only [HashstackState.process_collateral_added_event, h9, h0, h3,
    getLoan_ok hle, ok_bind]
  rfl

/-- Characterization of a successful `process_collateral_withdrawal_event`:
identical to the added case (same layout, same effect). -/
theorem process_collateral_withdrawal_event_ok_of {s : HashstackState} {ev : Event}
    {loan_id ocfa : ℕ} {oct : Token} {le : HashstackLoanEntity}
    (h9 : fieldAt ev.data 9 = .ok loan_id)
    (h0 : symbolAt ev.data 0 = .ok oct)
    (h3 : fieldAt ev.data 3 = .ok ocfa)
    (hle : s.lookup loan_id = some le) :
    s.process_collateral_withdrawal_event ev = .ok ⟨dictSet s.loan_entities loan_id
      { user := le.user
        debt_category := le.debt_category
        original_collateral := singleTokenAmount oct (ocfa : ℚ)
        borrowed_collateral := le.borrowed_collateral
        collateral := fun t =>
          singleTokenAmount oct (ocfa : ℚ) t + le.borrowed_collateral t
        debt := le.debt }⟩ := by
  simp only [HashstackState.process_collateral_withdrawal_event, h9, h0, h3,
    getLoan_ok hle, ok_bind]
  rfl

theorem process_events_append (s : HashstackState) (l₁ l₂ : List Event) :
    HashstackState.process_events s (l₁ ++ l₂) =
      (HashstackState.process_events s l₁ >>= fun s₁ =>
        HashstackState.process_events s₁ l₂) := by
  induction l₁ generalizing s with
  | nil => simp only [List.nil_append, HashstackState.process_events, ok_bind]
  | cons e t ih =>
    simp only [List.cons_append, HashstackState.process_events]
    cases h : s.process_event e with
    | error err => simp only [error_bind]
    | ok s₁ => simp only [ok_bind, List.append_eq, ih]

/-- Replaying a sequence of collateral events for loan `L` preserves the
user, borrowed collateral and debt, and leaves the original collateral of
the last event (or the starting one if none). -/
theorem replay_collateral_mids :
    ∀ (mids : List (Event × Token × ℕ)) (s : HashstackState) (L : ℕ)
      (le : HashstackLoanEntity),
      s.lookup L = some le →
      (∀ m ∈ mids,
        (m.1.key_name = EventType.collateral_added ∨
          m.1.key_name = EventType.collateral_withdrawal) ∧
        fieldAt m.1.data 9 = .ok L ∧ symbolAt m.1.data 0 = .ok m.2.1 ∧
        fieldAt m.1.data 3 = .ok m.2.2) →
      ∃ s', HashstackState.process_events s (mids.map Prod.fst) = .ok s' ∧
        ∃ le', s'.lookup L = some le' ∧
          le'.user = le.user ∧
          le'.borrowed_collateral = le.borrowed_collateral ∧
          le'.debt = le.debt ∧
          le'.original_collateral =
            lastOriginalCollateral le.original_collateral mids := by
  intro mids
  induction mids with
  | nil =>
    intro s L le hle hall
    exact ⟨s, rfl, le, hle, rfl, rfl, rfl, rfl⟩
  | cons m rest ih =>
    intro s L le hle hall
    obtain ⟨hkey, h9, h0, h3⟩ := hall m (List.mem_cons_self m rest)
    have hstep : s.process_event m.1 = .ok ⟨dictSet s.loan_entities L
        { user := le.user
          debt_category := le.debt_category
          original_collateral := singleTokenAmount m.2.1 (m.2.2 : ℚ)
          borrowed_collateral := le.borrowed_collateral
          collateral := fun t =>
            singleTokenAmount m.2.1 (m.2.2 : ℚ) t + le.borrowed_collateral t
          debt := le.debt }⟩ := by
      rcases hkey with hk | hk
      · unfold HashstackState.process_event
        rw [hk]
        exact process_collateral_added_event_ok_of h9 h0 h3 hle
      · unfold HashstackState.process_event
        rw [hk]
        exact process_collateral_withdrawal_event_ok_of h9 h0 h3 hle
    obtain ⟨s', hrun, le', hl', hu, hb, hd, ho⟩ :=
      ih ⟨dictSet s.loan_entities L
          { user := le.user
            debt_category := le.debt_category
            original_collateral := singleTokenAmount m.2.1 (m.2.2 : ℚ)
            borrowed_collateral := le.borrowed_collateral
            collateral := fun t =>
              singleTokenAmount m.2.1 (m.2.2 : ℚ) t + le.borrowed_collateral t
            debt := le.debt }⟩ L _ (lookup_dictSet_self _ _ _)
        (fun m' hm' => hall m' (List.mem_cons_of_mem m hm'))
    refine ⟨s', ?_, le', hl', hu, hb, hd, ho⟩
    simp only [List.map_cons, HashstackState.process_events, hstep, ok_bind]
    exact hrun

theorem lastOriginalCollateral_eq_getLast :
    ∀ (mids : List (Event × Token × ℕ)) (base : Token → ℚ),
      lastOriginalCollateral base mids =
        (match mids.getLast? with
         | none => base
         | some m => singleTokenAmount m.2.1 (m.2.2 : ℚ)) := by
  intro mids
  induction mids with
  | nil => intro base; rfl
  | cons m rest ih =>
    intro base
    cases rest with
    | nil => rfl
    | cons r t =>
      rw [lastOriginalCollateral, ih, List.getLast?_cons_cons]
      cases hg : (r :: t).getLast? with
      | none => exact absurd hg (by simp)
      | some x => rfl

/-- C9: replaying a `new_loan` event, then any sequence of
`collateral_added` / `collateral_withdrawal` events for that loan id,
then a `loan_repaid` event with matching user and a zero
borrowed-collateral amount, leaves the loan's debt and borrowed
collateral at zero for every token, and leaves `original_collateral`
equal to the set of the last collateral event, or the `new_loan` initial
value if none occurred. -/
theorem new_loan_then_repaid_roundtrip
    (s : HashstackState) (nl rp : Event) (mids : List (Event × Token × ℕ))
    (L u dfa bcfa cat rbcfa rcat : ℕ) (dt bct rdt rbct : Token) (oc : Token × ℚ)
    (hnlkey : nl.key_name = .new_loan)
    (h0 : fieldAt nl.data 0 = .ok L) (h1 : fieldAt nl.data 1 = .ok u)
    (h2 : symbolAt nl.data 2 = .ok dt) (h4 : fieldAt nl.data 4 = .ok dfa)
    (h6 : symbolAt nl.data 6 = .ok bct) (h7 : fieldAt nl.data 7 = .ok bcfa)
    (h10 : fieldAt nl.data 10 = .ok cat)
    (hoc : HashstackState.decode_new_loan_original_collateral nl.data = .ok oc)
    (hmids : ∀ m ∈ mids,
      (m.1.key_name = EventType.collateral_added ∨
        m.1.key_name = EventType.collateral_withdrawal) ∧
      fieldAt m.1.data 9 = .ok L ∧ symbolAt m.1.data 0 = .ok m.2.1 ∧
      fieldAt m.1.data 3 = .ok m.2.2)
    (hrpkey : rp.key_name = .loan_repaid)
    (r0 : fieldAt rp.data 0 = .ok L) (r1 : fieldAt rp.data 1 = .ok u)
    (r2 : symbolAt rp.data 2 = .ok rdt) (r6 : symbolAt rp.data 6 = .ok rbct)
    (r7 : fieldAt rp.data 7 = .ok rbcfa) (hz : (rbcfa : ℚ) = 0)
    (r10 : fieldAt rp.data 10 = .ok rcat) :
    ∃ s', HashstackState.process_events s (nl :: (mids.map Prod.fst ++ [rp])) =
        .ok s' ∧
      ∃ le', s'.lookup L = some le' ∧
        (∀ t, le'.debt t = 0) ∧ (∀ t, le'.borrowed_collateral t = 0) ∧
        le'.original_collateral =
          (match mids.getLast? with
           | none => singleTokenAmount oc.1 oc.2
           | some m => singleTokenAmount m.2.1 (m.2.2 : ℚ)) := by
  have hnl : s.process_new_loan_event nl = .ok ⟨dictSet s.loan_entities L
      (newLoanEntity u cat oc.1 oc.2 bct (bcfa : ℚ) dt (dfa : ℚ))⟩ :=
    process_new_loan_event_ok_of h0 h1 h2 h4 h6 h7 h10 hoc
  obtain ⟨s₂, hrun2, le₂, hl₂, hu₂, hb₂, hd₂, ho₂⟩ :=
    replay_collateral_mids mids
      ⟨dictSet s.loan_entities L
        (newLoanEntity u cat oc.1 oc.2 bct (bcfa : ℚ) dt (dfa : ℚ))⟩ L
      (newLoanEntity u cat oc.1 oc.2 bct (bcfa : ℚ) dt (dfa : ℚ))
      (lookup_dictSet_self _ _ _) hmids
  have hu : le₂.user = u := hu₂
  have hrp : s₂.process_loan_repaid_event rp = .ok ⟨dictSet s₂.loan_entities L
      { user := le₂.user
        debt_category := rcat
        original_collateral := le₂.original_collateral
        borrowed_collateral := singleTokenAmount rbct (rbcfa : ℚ)
        collateral := fun t =>
          le₂.original_collateral t + singleTokenAmount rbct (rbcfa : ℚ) t
        debt := singleTokenAmount rdt 0 }⟩ :=
    process_loan_repaid_event_ok_of r0 r1 hl₂ hu r2 r6 r7 hz r10
  refine ⟨⟨dictSet s₂.loan_entities L
      { user := le₂.user
        debt_category := rcat
        original_collateral := le₂.original_collateral
        borrowed_collateral := singleTokenAmount rbct (rbcfa : ℚ)
        collateral := fun t =>
          le₂.original_collateral t + singleTokenAmount rbct (rbcfa : ℚ) t
        debt := singleTokenAmount rdt 0 }⟩, ?_, _,
    lookup_dictSet_self _ _ _, ?_, ?_, ?_⟩
  · have e1 : s.process_event nl = .ok ⟨dictSet s.loan_entities L
        (newLoanEntity u cat oc.1 oc.2 bct (bcfa : ℚ) dt (dfa : ℚ))⟩ := by
      unfold HashstackState.process_event
      rw [hnlkey]
      exact hnl
    have e3 : s₂.process_event rp = .ok ⟨dictSet s₂.loan_entities L
        { user := le₂.user
          debt_category := rcat
          original_collateral := le₂.original_collateral
          borrowed_collateral := singleTokenAmount rbct (rbcfa : ℚ)
          collateral := fun t =>
            le₂.original_collateral t + singleTokenAmount rbct (rbcfa : ℚ) t
          debt := singleTokenAmount rdt 0 }⟩ := by
      unfold HashstackState.process_event
      rw [hrpkey]
      exact hrp
    simp only [HashstackState.process_events, e1, ok_bind]
    rw [process_events_append, hrun2, ok_bind]
    simp only [HashstackState.process_events, e3, ok_bind]
  · intro t; simp [singleTokenAmount]
  · intro t; simp [singleTokenAmount, hz]
  · show le₂.original_collateral = _
    rw [ho₂, lastOriginalCollateral_eq_getLast]
    cases mids.getLast? <;> rfl

/-- C9 witness: the round trip evaluated on a concrete replay — loan 7
created with 60 ETH original collateral, one `collateral_added` event
rewriting it to 33 wBTC, then repaid. -/
theorem new_loan_then_repaid_roundtrip_witness :
    (((0 : ℕ) : ℚ) = 0) ∧
    (∃ s', HashstackState.process_events ⟨[]⟩
        (newLoanEv7 :: ([(midCollateralEv, Token.wBTC, 33)].map Prod.fst ++
          [repayEv7])) = .ok s' ∧
      ∃ le', s'.lookup 7 = some le' ∧
        (∀ t, le'.debt t = 0) ∧ (∀ t, le'.borrowed_collateral t = 0) ∧
        le'.original_collateral =
          (match ([(midCollateralEv, Token.wBTC, 33)] :
              List (Event × Token × ℕ)).getLast? with
           | none => singleTokenAmount Token.ETH ((60 : ℕ) : ℚ)
           | some m => singleTokenAmount m.2.1 (m.2.2 : ℚ))) := by
  refine ⟨by norm_num, ?_⟩
  exact new_loan_then_repaid_roundtrip ⟨[]⟩ newLoanEv7 repayEv7
    [(midCollateralEv, .wBTC, 33)] 7 222 40 20 3 0 1 .ETH .ETH .ETH .ETH
    (.ETH, ((60 : ℕ) : ℚ)) rfl rfl rfl rfl rfl rfl rfl rfl rfl
    (by
      intro m hm
      rw [List.mem_singleton] at hm
      subst hm
      exact ⟨Or.inl rfl, rfl, rfl, rfl⟩)
    rfl rfl rfl rfl rfl rfl (by norm_num) rfl

end Hashstack
